import Mathlib

/-!
Verification of the gb-llm game kernel against its specification.

The definitions below are shallow embeddings of the C sources:

* `LCG.random` — the `random` function shared by the fishing and slots games
  (`src/games/samples/fishing/src/game.c`, `src/games/samples/slots/src/game.c`);
* namespace `Clicker` — the counter and SRAM save logic of
  `src/games/clicker/src/game.c`;
* namespace `Puzzle` — the falling-block puzzle of
  `src/games/samples/puzzle/src/game.c`.

Machine integers are modelled as `Nat` (or `Int` for the C `int8_t` piece
coordinates) with explicit `% 2^w` reductions exactly where the C code's
assignments truncate.  SRAM is a byte-addressable `Nat → Nat` map, and the
byte stores of a save operation are kept as an explicit ordered list so that
interrupted (prefix) writes can be examined.
-/

set_option maxRecDepth 4000

-- ============================================================
-- Joypad button masks (the `J_*` constants of the external gb.h
-- header, fixed by the spec's input interface bit order:
-- bit 0 RIGHT, 1 LEFT, 2 UP, 3 DOWN, 4 A, 5 B, 6 SELECT, 7 START).
-- ============================================================

/-- Joypad bit mask for RIGHT (bit 0). -/
def J_RIGHT : Nat := 0x01

/-- Joypad bit mask for LEFT (bit 1). -/
def J_LEFT : Nat := 0x02

/-- Joypad bit mask for UP (bit 2). -/
def J_UP : Nat := 0x04

/-- Joypad bit mask for DOWN (bit 3). -/
def J_DOWN : Nat := 0x08

/-- Joypad bit mask for A (bit 4). -/
def J_A : Nat := 0x10

/-- Joypad bit mask for B (bit 5). -/
def J_B : Nat := 0x20

/-- Joypad bit mask for SELECT (bit 6). -/
def J_SELECT : Nat := 0x40

/-- Joypad bit mask for START (bit 7). -/
def J_START : Nat := 0x80

/-- Just-pressed mask computed by the games each frame:
`uint8_t pressed = curr_input & ~prev_input;` on 8-bit inputs. -/
def pressedMask (prev curr : Nat) : Nat :=
  curr &&& (prev ^^^ 255)

namespace LCG

/-- The `random` function of the fishing and slots games
(`game.c` lines 8-11 in both):
`game.seed = game.seed * 1103515245 + 12345; return (game.seed >> 8) & 0x7FFF;`
where `game.seed` has type `uint16_t`, so the assignment truncates mod `2^16`.
Returns the pair (new seed, returned value). -/
def random (seed : Nat) : Nat × Nat :=
  let s := (seed * 1103515245 + 12345) % 65536
  (s, (s >>> 8) &&& 0x7FFF)

end LCG

namespace Clicker

/-- Modelled from the spec: the clicker game's header `game.h` (which defines
`SAVE_MAGIC` and the SRAM byte addresses) is not among the repository's files.
The spec's persisted-state layout makes byte 0 a game-defined non-zero magic
tag, bytes 1.. the 16-bit high score low byte first, and its NV round-trip
scenario uses magic 0x42. -/
def SAVE_MAGIC : Nat := 0x42

/-- SRAM byte offset of the magic tag (byte 0 of the region). -/
def SRAM_MAGIC_ADDR : Nat := 0

/-- SRAM byte offset of the high score's low byte. -/
def SRAM_HIGHSCORE_L_ADDR : Nat := 1

/-- SRAM byte offset of the high score's high byte. -/
def SRAM_HIGHSCORE_H_ADDR : Nat := 2

/-- Clicker game state (`GameState game` plus the SRAM region and the two
input-snapshot globals `prev_input`, `curr_input`).  `count` and `highscore`
are the 16-bit counters of the game, `save_valid` a byte flag. -/
structure GameState where
  count : Nat
  highscore : Nat
  save_valid : Nat
  prev_input : Nat
  curr_input : Nat
  sram : Nat → Nat

/-- Apply one SRAM byte store (address, value). -/
def writeByte (m : Nat → Nat) (w : Nat × Nat) : Nat → Nat :=
  fun a => if a = w.1 then w.2 else m a

/-- Apply a sequence of SRAM byte stores in order. -/
def writeBytes (m : Nat → Nat) (ws : List (Nat × Nat)) : Nat → Nat :=
  ws.foldl writeByte m

/-- The ordered byte stores performed by `save_write` (game.c lines 54-62):
the magic tag to byte 0 first, then the high score's low byte, then its
high byte. -/
def save_write_bytes (highscore : Nat) : List (Nat × Nat) :=
  [(SRAM_MAGIC_ADDR, SAVE_MAGIC),
   (SRAM_HIGHSCORE_L_ADDR, highscore &&& 0xFF),
   (SRAM_HIGHSCORE_H_ADDR, (highscore >>> 8) &&& 0xFF)]

/-- `save_write` (game.c lines 54-62): write magic and 16-bit high score. -/
def save_write (s : GameState) : GameState :=
  { s with sram := writeBytes s.sram (save_write_bytes s.highscore) }

/-- `save_load` (game.c lines 32-47): validate the magic tag; on success load
`game.highscore = *SRAM_HIGHSCORE_L | (*SRAM_HIGHSCORE_H << 8)` and set
`save_valid = 1`, otherwise zero both. -/
def save_load (s : GameState) : GameState :=
  if s.sram SRAM_MAGIC_ADDR = SAVE_MAGIC then
    { s with
      highscore := s.sram SRAM_HIGHSCORE_L_ADDR ||| (s.sram SRAM_HIGHSCORE_H_ADDR <<< 8),
      save_valid := 1 }
  else
    { s with highscore := 0, save_valid := 0 }

/-- The ordered byte stores performed by `save_clear` (game.c lines 69-80). -/
def save_clear_bytes : List (Nat × Nat) :=
  [(SRAM_MAGIC_ADDR, 0x00),
   (SRAM_HIGHSCORE_L_ADDR, 0x00),
   (SRAM_HIGHSCORE_H_ADDR, 0x00)]

/-- `save_clear` (game.c lines 69-80): invalidate the magic tag, zero the
payload, and reset the in-memory high score and validity flag. -/
def save_clear (s : GameState) : GameState :=
  let s' := { s with sram := writeBytes s.sram save_clear_bytes }
  { s' with highscore := 0, save_valid := 0 }

/-- `game_handle_input` (game.c lines 101-126) with this frame's joypad byte:
A increments `count` (capped at 9999), B resets it, START saves, SELECT
clears the save.  Each button acts on its rising edge only. -/
def game_handle_input (s : GameState) (joy : Nat) : GameState :=
  let s := { s with prev_input := s.curr_input, curr_input := joy }
  let s :=
    if s.curr_input &&& J_A ≠ 0 ∧ s.prev_input &&& J_A = 0 then
      (if s.count < 9999 then { s with count := s.count + 1 } else s)
    else s
  let s :=
    if s.curr_input &&& J_B ≠ 0 ∧ s.prev_input &&& J_B = 0 then
      { s with count := 0 }
    else s
  let s :=
    if s.curr_input &&& J_START ≠ 0 ∧ s.prev_input &&& J_START = 0 then
      save_write s
    else s
  let s :=
    if s.curr_input &&& J_SELECT ≠ 0 ∧ s.prev_input &&& J_SELECT = 0 then
      save_clear s
    else s
  s

/-- `game_update` (game.c lines 135-141): when `count` beats `highscore`,
copy it over and auto-save. -/
def game_update (s : GameState) : GameState :=
  if s.count > s.highscore then
    save_write { s with highscore := s.count }
  else s

/-- An all-zero SRAM region, as left by `save_clear` (used by the concrete
counterexamples below). -/
def sramZero : Nat → Nat := fun _ => 0

/-- A concrete clicker state over cleared SRAM with high score 0x1234. -/
def cexState : GameState :=
  { count := 0, highscore := 0x1234, save_valid := 0,
    prev_input := 0, curr_input := 0, sram := sramZero }

/-- The state left by a `save_write` from `cexState` interrupted after its
first byte store (the proper prefix of length 1 of its byte stores). -/
def interruptedState : GameState :=
  { cexState with
    sram := writeBytes cexState.sram ((save_write_bytes cexState.highscore).take 1) }

end Clicker

namespace Puzzle

-- ============================================================
-- Constants of game.h
-- ============================================================

/-- Playfield width in cells (`GRID_WIDTH`). -/
def GRID_WIDTH : Nat := 10

/-- Playfield height in cells (`GRID_HEIGHT`). -/
def GRID_HEIGHT : Nat := 18

/-- Number of piece types (`NUM_PIECES`). -/
def NUM_PIECES : Nat := 7

/-- Frames between gravity drops (`DROP_SPEED_NORMAL`). -/
def DROP_SPEED_NORMAL : Nat := 30

/-- Frames between gravity drops while DOWN is held (`DROP_SPEED_FAST`). -/
def DROP_SPEED_FAST : Nat := 3

/-- One playfield row: `uint8_t grid[GRID_HEIGHT][GRID_WIDTH]`, a cell being
0 = empty or 1 = filled, modelled as `Bool`. -/
abbrev Row := List Bool

/-- The playfield: 18 rows of 10 cells. -/
abbrev Grid := List Row

/-- The grid's shape invariant: 18 rows, each of 10 cells. -/
def gridWF (g : Grid) : Prop :=
  g.length = GRID_HEIGHT ∧ ∀ r ∈ g, r.length = GRID_WIDTH

/-- Read `grid[y][x]` at natural coordinates (false outside the arrays). -/
def getCellN (g : Grid) (y x : Nat) : Bool :=
  (g.getD y []).getD x false

/-- Read `grid[gy][gx]` at the signed coordinates the C code indexes with;
only ever used by the code under a `gy >= 0` (and in-range) guard. -/
def getCell (g : Grid) (y x : Int) : Bool :=
  getCellN g y.toNat x.toNat

/-- Set `grid[y][x] = 1`. -/
def setCell (g : Grid) (y x : Nat) : Grid :=
  g.set y ((g.getD y []).set x true)

/-- Number of occupied cells of the grid. -/
def occupied (g : Grid) : Nat :=
  (g.map fun r => r.countP id).sum

-- ============================================================
-- PIECE DATA (`const uint8_t pieces[7][4][4][4]`, game.c lines 39-89)
-- ============================================================

/-- The static piece table: 7 piece types, 4 rotations, each a 4×4 bitmap. -/
def pieces : List (List (List (List Nat))) :=
  [ -- I piece
    [ [[0,0,0,0], [1,1,1,1], [0,0,0,0], [0,0,0,0]],
      [[0,0,1,0], [0,0,1,0], [0,0,1,0], [0,0,1,0]],
      [[0,0,0,0], [0,0,0,0], [1,1,1,1], [0,0,0,0]],
      [[0,1,0,0], [0,1,0,0], [0,1,0,0], [0,1,0,0]] ],
    -- O piece (no rotation change)
    [ [[0,0,0,0], [0,1,1,0], [0,1,1,0], [0,0,0,0]],
      [[0,0,0,0], [0,1,1,0], [0,1,1,0], [0,0,0,0]],
      [[0,0,0,0], [0,1,1,0], [0,1,1,0], [0,0,0,0]],
      [[0,0,0,0], [0,1,1,0], [0,1,1,0], [0,0,0,0]] ],
    -- T piece
    [ [[0,0,0,0], [1,1,1,0], [0,1,0,0], [0,0,0,0]],
      [[0,1,0,0], [1,1,0,0], [0,1,0,0], [0,0,0,0]],
      [[0,1,0,0], [1,1,1,0], [0,0,0,0], [0,0,0,0]],
      [[0,1,0,0], [0,1,1,0], [0,1,0,0], [0,0,0,0]] ],
    -- S piece
    [ [[0,0,0,0], [0,1,1,0], [1,1,0,0], [0,0,0,0]],
      [[0,1,0,0], [0,1,1,0], [0,0,1,0], [0,0,0,0]],
      [[0,0,0,0], [0,1,1,0], [1,1,0,0], [0,0,0,0]],
      [[0,1,0,0], [0,1,1,0], [0,0,1,0], [0,0,0,0]] ],
    -- Z piece
    [ [[0,0,0,0], [1,1,0,0], [0,1,1,0], [0,0,0,0]],
      [[0,0,1,0], [0,1,1,0], [0,1,0,0], [0,0,0,0]],
      [[0,0,0,0], [1,1,0,0], [0,1,1,0], [0,0,0,0]],
      [[0,0,1,0], [0,1,1,0], [0,1,0,0], [0,0,0,0]] ],
    -- L piece
    [ [[0,0,0,0], [1,1,1,0], [1,0,0,0], [0,0,0,0]],
      [[1,1,0,0], [0,1,0,0], [0,1,0,0], [0,0,0,0]],
      [[0,0,1,0], [1,1,1,0], [0,0,0,0], [0,0,0,0]],
      [[0,1,0,0], [0,1,0,0], [0,1,1,0], [0,0,0,0]] ],
    -- J piece
    [ [[0,0,0,0], [1,1,1,0], [0,0,1,0], [0,0,0,0]],
      [[0,1,0,0], [0,1,0,0], [1,1,0,0], [0,0,0,0]],
      [[1,0,0,0], [1,1,1,0], [0,0,0,0], [0,0,0,0]],
      [[0,1,1,0], [0,1,0,0], [0,1,0,0], [0,0,0,0]] ] ]

/-- The C truth test `pieces[type][rotation][row][col]` as a `Bool`. -/
def pieceCell (t rot row col : Nat) : Bool :=
  decide (((((pieces.getD t []).getD rot []).getD row []).getD col 0) ≠ 0)

/-- Number of set cells of a piece's 4×4 footprint. -/
def pieceCount (t rot : Nat) : Nat :=
  ((List.range 4).map fun row =>
    (List.range 4).countP fun col => pieceCell t rot row col).sum

-- ============================================================
-- RNG (game.c lines 23-29)
-- ============================================================

/-- One step of the 8-bit xorshift `rand8()`:
`rand_seed ^= rand_seed << 3; rand_seed ^= rand_seed >> 5;
rand_seed ^= rand_seed << 4;` on a `uint8_t` seed, each assignment
truncating mod 256.  Returns the new seed (which is also the value
`rand8` returns). -/
def rand8 (seed : Nat) : Nat :=
  let s1 := (seed ^^^ (seed <<< 3)) % 256
  let s2 := (s1 ^^^ (s1 >>> 5)) % 256
  let s3 := (s2 ^^^ (s2 <<< 4)) % 256
  s3

-- ============================================================
-- COLLISION DETECTION (`can_place`, game.c lines 98-118)
-- ============================================================

/-- `can_place(px, py, type, rotation)`, with the C `int8_t` coordinate
arithmetic widened to unbounded `Int`: every set cell of the piece's 4×4
footprint must lie inside the grid's x range, not below the bottom, and —
when on screen (`gy >= 0`) — on an unoccupied grid cell.  This widened form
agrees with the source whenever `px + col` and `py + row` stay inside the
`int8_t` range (`can_place_int8_agrees` below), which covers every state the
game reaches (pieces spawn at y = 0, x = 3 and move one cell at a time
inside the 10×18 grid).  The full-domain model with the source's wrapping
assignments is `can_place_int8`. -/
def can_place (g : Grid) (px py : Int) (t rot : Nat) : Bool :=
  (List.range 4).all fun row =>
    (List.range 4).all fun col =>
      if pieceCell t rot row col then
        let gx : Int := px + col
        let gy : Int := py + row
        if gx < 0 ∨ (GRID_WIDTH : Int) ≤ gx then false
        else if (GRID_HEIGHT : Int) ≤ gy then false
        else if 0 ≤ gy ∧ getCell g gy gx then false
        else true
      else true

/-- Two's-complement truncation to `int8_t`: the value a C assignment
`int8_t v = e;` stores for an `int` expression `e`. -/
def int8 (x : Int) : Int :=
  (x + 128) % 256 - 128

/-- `can_place(px, py, type, rotation)` modelled with the source's `int8_t`
assignments kept exact: `gx` and `gy` are declared `int8_t`, so
`gx = px + col` and `gy = py + row` truncate mod 256 into [-128, 127]
(e.g. `py = 127, row = 1` gives `gy = -128`, which the bounds checks then
treat as above the grid's top). -/
def can_place_int8 (g : Grid) (px py : Int) (t rot : Nat) : Bool :=
  (List.range 4).all fun row =>
    (List.range 4).all fun col =>
      if pieceCell t rot row col then
        let gx : Int := int8 (px + col)
        let gy : Int := int8 (py + row)
        if gx < 0 ∨ (GRID_WIDTH : Int) ≤ gx then false
        else if (GRID_HEIGHT : Int) ≤ gy then false
        else if 0 ≤ gy ∧ getCell g gy gx then false
        else true
      else true

-- ============================================================
-- PIECE LOCKING (`lock_piece`, game.c lines 127-144)
-- ============================================================

/-- The grid mutation of `lock_piece`: every set cell of the current piece's
footprint whose grid coordinates are in range is written into the grid. -/
def lock_piece (g : Grid) (px py : Int) (t rot : Nat) : Grid :=
  (List.range 4).foldl
    (fun g1 row =>
      (List.range 4).foldl
        (fun g2 col =>
          if pieceCell t rot row col then
            let gx : Int := px + col
            let gy : Int := py + row
            if 0 ≤ gy ∧ gy < (GRID_HEIGHT : Int) ∧ 0 ≤ gx ∧ gx < (GRID_WIDTH : Int) then
              setCell g2 gy.toNat gx.toNat
            else g2
          else g2)
        g1)
    g

-- ============================================================
-- LINE CLEARING (`check_lines`, game.c lines 179-216)
-- ============================================================

/-- Whether grid row `row` is fully occupied (the `full` test of
`check_lines`). -/
def rowFull (g : Grid) (row : Nat) : Bool :=
  (List.range GRID_WIDTH).all fun col => getCellN g row col

/-- Clearing one full row: all rows above shift down by one and the top row
is zeroed. -/
def clearRow (g : Grid) (row : Nat) : Grid :=
  List.replicate GRID_WIDTH false :: (g.take row ++ g.drop (row + 1))

/-- The scanning loop of `check_lines`: the fuel argument is the number of
rows still to scan (`GRID_HEIGHT` at the initial call, `row` starting at 0),
and `cleared` accumulates `lines_cleared`. -/
def checkLinesGo : Nat → Grid → Nat → Nat → Grid × Nat
  | 0, g, _, cleared => (g, cleared)
  | fuel + 1, g, row, cleared =>
    if rowFull g row then
      checkLinesGo fuel (clearRow g row) (row + 1) (cleared + 1)
    else
      checkLinesGo fuel g (row + 1) cleared

/-- The grid scan of `check_lines`: the resulting grid and the number of
lines cleared. -/
def check_lines_scan (g : Grid) : Grid × Nat :=
  checkLinesGo GRID_HEIGHT g 0 0

end Puzzle

namespace Puzzle

-- ============================================================
-- GAME STATE (game.h `GameState`, plus the file's globals)
-- ============================================================

/-- Puzzle game state: the `GameState` struct of game.h (grid, current and
next piece, timers, score, flags, previous-footprint mirror) together with
the file-scope globals `rand_seed`, `prev_input` and `curr_input`. -/
structure GameState where
  grid : Grid
  current_type : Nat
  current_rotation : Nat
  current_x : Int
  current_y : Int
  next_piece : Nat
  drop_timer : Nat
  drop_speed : Nat
  score : Nat
  lines : Nat
  game_over : Nat
  needs_redraw : Nat
  prev_x : Int
  prev_y : Int
  prev_type : Nat
  prev_rotation : Nat
  rand_seed : Nat
  prev_input : Nat
  curr_input : Nat
deriving DecidableEq

/-- `check_lines` (game.c lines 179-216) on the full state: scan and clear
full rows, then credit `lines` and `score`
(`game.score += lines_cleared * 100 + (lines_cleared - 1) * 100`, both
16-bit counters). -/
def check_lines (s : GameState) : GameState :=
  let p := check_lines_scan s.grid
  let s := { s with grid := p.1 }
  if 0 < p.2 then
    { s with
      lines := (s.lines + p.2) % 65536,
      score := (s.score + (p.2 * 100 + (p.2 - 1) * 100)) % 65536,
      needs_redraw := 1 }
  else s

/-- `spawn_piece` (game.c lines 149-170): promote the next piece to current
at (x=3, y=0, rotation=0), sync the previous-footprint mirror, draw a new
next piece from `rand8`, flag game over when the spawned piece does not fit,
and reset the drop timer. -/
def spawn_piece (s : GameState) : GameState :=
  let s := { s with
    current_type := s.next_piece, current_rotation := 0,
    current_x := 3, current_y := 0,
    prev_x := 3, prev_y := 0,
    prev_type := s.next_piece, prev_rotation := 0 }
  let seed := rand8 s.rand_seed
  let s := { s with rand_seed := seed, next_piece := seed % NUM_PIECES }
  let s :=
    if can_place s.grid s.current_x s.current_y s.current_type s.current_rotation then s
    else { s with game_over := 1 }
  { s with drop_timer := 0 }

/-- `game_init` (game.c lines 270-303): clear the grid, reset counters and
flags, draw the first two pieces, and sync the previous-footprint mirror.
The globals `rand_seed`, `prev_input`, `curr_input` persist. -/
def game_init (s : GameState) : GameState :=
  let s := { s with
    grid := List.replicate GRID_HEIGHT (List.replicate GRID_WIDTH false),
    score := 0, lines := 0, game_over := 0,
    drop_timer := 0, drop_speed := DROP_SPEED_NORMAL, needs_redraw := 1 }
  let seed := rand8 s.rand_seed
  let s := { s with rand_seed := seed, next_piece := seed % NUM_PIECES }
  let s := spawn_piece s
  { s with prev_x := s.current_x, prev_y := s.current_y,
           prev_type := s.current_type, prev_rotation := s.current_rotation }

/-- `game_handle_input` (game.c lines 348-398) with this frame's joypad
byte: shift the input snapshots, restart on START when game over, return
early when game over, else handle left/right/rotate on press edges, select
the drop speed from DOWN being held, and mix the input into `rand_seed`
(`rand_seed ^= (uint8_t)(curr_input + game.drop_timer)`). -/
def game_handle_input (s : GameState) (joy : Nat) : GameState :=
  let s := { s with prev_input := s.curr_input, curr_input := joy }
  let pressed := pressedMask s.prev_input s.curr_input
  if pressed &&& J_START ≠ 0 ∧ s.game_over ≠ 0 then
    game_init s
  else if s.game_over ≠ 0 then s
  else
    let s :=
      if pressed &&& J_LEFT ≠ 0 ∧
         can_place s.grid (s.current_x - 1) s.current_y s.current_type s.current_rotation then
        { s with current_x := s.current_x - 1 }
      else s
    let s :=
      if pressed &&& J_RIGHT ≠ 0 ∧
         can_place s.grid (s.current_x + 1) s.current_y s.current_type s.current_rotation then
        { s with current_x := s.current_x + 1 }
      else s
    let s :=
      if pressed &&& J_A ≠ 0 ∧
         can_place s.grid s.current_x s.current_y s.current_type
           ((s.current_rotation + 1) &&& 0x03) then
        { s with current_rotation := (s.current_rotation + 1) &&& 0x03 }
      else s
    let s :=
      if s.curr_input &&& J_DOWN ≠ 0 then { s with drop_speed := DROP_SPEED_FAST }
      else { s with drop_speed := DROP_SPEED_NORMAL }
    { s with rand_seed := s.rand_seed ^^^ ((s.curr_input + s.drop_timer) % 256) }

/-- `game_update` (game.c lines 407-426): return at once when game over;
otherwise advance the drop timer and, when it reaches the drop interval,
either descend one cell or lock the piece, clear lines, and spawn. -/
def game_update (s : GameState) : GameState :=
  if s.game_over ≠ 0 then s
  else
    let s := { s with drop_timer := (s.drop_timer + 1) % 256 }
    if s.drop_speed ≤ s.drop_timer then
      let s := { s with drop_timer := 0 }
      if can_place s.grid s.current_x (s.current_y + 1) s.current_type s.current_rotation then
        { s with current_y := s.current_y + 1 }
      else
        let s := { s with
          grid := lock_piece s.grid s.current_x s.current_y s.current_type s.current_rotation,
          needs_redraw := 1 }
        spawn_piece (check_lines s)
    else s

/-- One frame of the main loop's simulation: `game_handle_input();
game_update();` fed with that frame's joypad byte. -/
def step (s : GameState) (joy : Nat) : GameState :=
  game_update (game_handle_input s joy)

/-- A whole run: fold `step` over a recorded per-frame input trace. -/
def run (s : GameState) (trace : List Nat) : GameState :=
  trace.foldl step s

-- ============================================================
-- Concrete states for the closed theorems below
-- ============================================================

/-- The empty 10×18 grid. -/
def emptyGrid : Grid :=
  List.replicate GRID_HEIGHT (List.replicate GRID_WIDTH false)

/-- A grid whose bottom four rows are completely full. -/
def gridFourFull : Grid :=
  List.replicate 14 (List.replicate GRID_WIDTH false) ++
    List.replicate 4 (List.replicate GRID_WIDTH true)

/-- A baseline state over the empty grid with the boot-time seed 42. -/
def baseState : GameState :=
  { grid := emptyGrid,
    current_type := 0, current_rotation := 0, current_x := 3, current_y := 0,
    next_piece := 0, drop_timer := 0, drop_speed := DROP_SPEED_NORMAL,
    score := 0, lines := 0, game_over := 0, needs_redraw := 0,
    prev_x := 3, prev_y := 0, prev_type := 0, prev_rotation := 0,
    rand_seed := 42, prev_input := 0, curr_input := 0 }

/-- The baseline state with the bottom four rows full. -/
def stateFourFull : GameState :=
  { baseState with grid := gridFourFull }

/-- The baseline state flagged game over. -/
def stateOver : GameState :=
  { baseState with game_over := 1 }

/-- One column step of the inner locking loop of `lock_piece` (the body of
its `col` loop, written out as a function so the loop can be reasoned about;
`lock_piece` is definitionally the double fold of these steps). -/
def lockStep (px py : Int) (t rot row : Nat) (g2 : Grid) (col : Nat) : Grid :=
  if pieceCell t rot row col then
    let gx : Int := px + col
    let gy : Int := py + row
    if 0 ≤ gy ∧ gy < (GRID_HEIGHT : Int) ∧ 0 ≤ gx ∧ gx < (GRID_WIDTH : Int) then
      setCell g2 gy.toNat gx.toNat
    else g2
  else g2

/-- One row of the locking loop of `lock_piece`. -/
def lockRow (px py : Int) (t rot : Nat) (g1 : Grid) (row : Nat) : Grid :=
  (List.range 4).foldl (lockStep px py t rot row) g1

/-- A grid whose bottom row is full except columns 1 and 2 (so an O piece
locked at (0, 15) completes it). -/
def gridAlmostFull : Grid :=
  List.replicate 17 (List.replicate GRID_WIDTH false) ++
    [[true, false, false, true, true, true, true, true, true, true]]

end Puzzle

-- ============================================================
-- Theorems
-- ============================================================

/-- Recomposing a 16-bit value from the low and high bytes the save code
stores. -/
theorem lo_hi_recompose (h : Nat) (hlt : h < 65536) :
    (h &&& 0xFF) ||| (((h >>> 8) &&& 0xFF) <<< 8) = h := by
  have e255 : (0xFF : Nat) = 2 ^ 8 - 1 := rfl
  rw [e255, Nat.and_pow_two_sub_one_eq_mod, Nat.and_pow_two_sub_one_eq_mod,
    Nat.shiftRight_eq_div_pow, Nat.shiftLeft_eq]
  have hd : h / 2 ^ 8 < 2 ^ 8 := by omega
  have key := Nat.mul_add_lt_is_or (i := 8) (a := h / 2 ^ 8) (Nat.mod_lt h (by norm_num))
  rw [Nat.mod_eq_of_lt hd, Nat.lor_comm, Nat.mul_comm, ← key]
  omega

/-- C1: at the failing input — a lock event whose `check_lines` clears four
full rows — the code adds `4 * 100 + 3 * 100 = 700` points
(`game.score += lines_cleared * 100 + (lines_cleared - 1) * 100`), not the
800 of the claimed schedule (which the code's own comment also states). -/
theorem check_lines_four_rows_adds_700 :
    (Puzzle.check_lines Puzzle.stateFourFull).lines = 4 ∧
    (Puzzle.check_lines Puzzle.stateFourFull).score = 700 ∧
    (Puzzle.check_lines Puzzle.stateFourFull).score ≠ 800 := by
  refine ⟨by decide, by decide, by decide⟩

/-- C2: at the failing input — `save_write` over cleared SRAM with
`game.highscore = 0x1234`, interrupted after its first byte store — the
magic tag is the FIRST byte written (not the last), so the interrupted
store leaves the magic valid over a zero payload and the subsequent
`save_load` reports a valid save with high score 0 instead of "no save". -/
theorem save_write_magic_written_first :
    (Clicker.save_write_bytes 0x1234).head? =
      some (Clicker.SRAM_MAGIC_ADDR, Clicker.SAVE_MAGIC) ∧
    (Clicker.save_load Clicker.interruptedState).save_valid = 1 ∧
    (Clicker.save_load Clicker.interruptedState).highscore = 0 := by
  refine ⟨by decide, by decide, by decide⟩

/-- C3: save round-trip: for every 16-bit high score `h`, `save_write` then
`save_load` restores `h` and marks the save valid, and `save_write` then
`save_clear` then `save_load` yields high score 0 and no valid save. -/
theorem save_roundtrip (s : Clicker.GameState) (h : Nat) (hlt : h < 65536)
    (hh : s.highscore = h) :
    ((Clicker.save_load (Clicker.save_write s)).highscore = h ∧
     (Clicker.save_load (Clicker.save_write s)).save_valid = 1) ∧
    ((Clicker.save_load (Clicker.save_clear (Clicker.save_write s))).highscore = 0 ∧
     (Clicker.save_load (Clicker.save_clear (Clicker.save_write s))).save_valid = 0) := by
  subst hh
  simp only [Clicker.save_load, Clicker.save_write, Clicker.save_clear,
    Clicker.writeBytes, Clicker.writeByte, Clicker.save_write_bytes,
    Clicker.save_clear_bytes, Clicker.SAVE_MAGIC, Clicker.SRAM_MAGIC_ADDR,
    Clicker.SRAM_HIGHSCORE_L_ADDR, Clicker.SRAM_HIGHSCORE_H_ADDR, List.foldl]
  norm_num
  exact lo_hi_recompose s.highscore hlt

/-- C3 witness: the round-trip at the concrete state `cexState`
(high score 0x1234 over cleared SRAM). -/
theorem save_roundtrip_witness :
    ((Clicker.save_load (Clicker.save_write Clicker.cexState)).highscore = 0x1234 ∧
     (Clicker.save_load (Clicker.save_write Clicker.cexState)).save_valid = 1) ∧
    ((Clicker.save_load (Clicker.save_clear (Clicker.save_write Clicker.cexState))).highscore = 0 ∧
     (Clicker.save_load (Clicker.save_clear (Clicker.save_write Clicker.cexState))).save_valid = 0) :=
  save_roundtrip Clicker.cexState 0x1234 (by norm_num) rfl

/-- C4 counterexample: with seed 0 the new state is 12345 and the returned
value is `(12345 >>> 8) &&& 0x7FFF = 48`, which is not the upper 15 bits
`12345 >>> 1 = 6172` of the 16-bit state. -/
theorem random_return_not_upper_15_bits :
    (LCG.random 0).1 = (0 * 1103515245 + 12345) % 65536 ∧
    (LCG.random 0).2 ≠ (LCG.random 0).1 >>> 1 := by
  refine ⟨by decide, by decide⟩

/-- C4 amended: each call advances the 16-bit state by exactly one step of
`state * 1103515245 + 12345 (mod 2^16)`, and the returned value is
`(new_state >> 8) & 0x7FFF`, which equals the upper 8 bits of the new state
(a value below 256), not its upper 15 bits. -/
theorem random_step_advances_state (seed : Nat) :
    (LCG.random seed).1 = (seed * 1103515245 + 12345) % 65536 ∧
    (LCG.random seed).2 = (LCG.random seed).1 >>> 8 ∧
    (LCG.random seed).2 < 256 := by
  have hs : (seed * 1103515245 + 12345) % 65536 < 65536 := Nat.mod_lt _ (by norm_num)
  have h256 : ((seed * 1103515245 + 12345) % 65536) >>> 8 < 256 := by
    rw [Nat.shiftRight_eq_div_pow]
    omega
  have hdiv : ((seed * 1103515245 + 12345) % 65536) >>> 8 < 2 ^ 15 :=
    lt_trans h256 (by norm_num)
  have e : (0x7FFF : Nat) = 2 ^ 15 - 1 := rfl
  have hand : (((seed * 1103515245 + 12345) % 65536) >>> 8) &&& 0x7FFF
      = ((seed * 1103515245 + 12345) % 65536) >>> 8 := by
    rw [e]
    exact Nat.and_pow_two_sub_one_of_lt_two_pow hdiv
  refine ⟨rfl, hand, ?_⟩
  show (((seed * 1103515245 + 12345) % 65536) >>> 8) &&& 0x7FFF < 256
  rw [hand]
  exact h256

/-- Helper: the placement check, characterised cell by cell (also used by
the lock-conservation proof). -/
theorem can_place_spec (g : Puzzle.Grid) (px py : Int) (t rot : Nat) :
    Puzzle.can_place g px py t rot = true ↔
      ∀ row col : Nat, row < 4 → col < 4 → Puzzle.pieceCell t rot row col = true →
        (0 ≤ px + (col : Int) ∧ px + (col : Int) < 10 ∧
         (py + (row : Int) < 0 ∨
          (py + (row : Int) < 18 ∧
           Puzzle.getCell g (py + (row : Int)) (px + (col : Int)) = false))) := by
  unfold Puzzle.can_place
  rw [List.all_eq_true]
  constructor
  · intro H row col hr hc hcell
    have h1 := H row (List.mem_range.mpr hr)
    rw [List.all_eq_true] at h1
    have h2 := h1 col (List.mem_range.mpr hc)
    rw [if_pos hcell] at h2
    dsimp only at h2
    simp only [Puzzle.GRID_WIDTH, Puzzle.GRID_HEIGHT] at h2
    split_ifs at h2 with hA hB hC
    push_neg at hA hB hC
    refine ⟨by omega, by omega, ?_⟩
    by_cases hg : Puzzle.getCell g (py + (row : Int)) (px + (col : Int)) = true
    · left
      by_contra hge
      push_neg at hge
      exact (hC hge) hg
    · right
      exact ⟨by omega, by simpa using hg⟩
  · intro H row hrmem
    rw [List.all_eq_true]
    intro col hcmem
    have hr := List.mem_range.mp hrmem
    have hc := List.mem_range.mp hcmem
    by_cases hcell : Puzzle.pieceCell t rot row col = true
    · rw [if_pos hcell]
      obtain ⟨h1, h2, h3⟩ := H row col hr hc hcell
      dsimp only
      simp only [Puzzle.GRID_WIDTH, Puzzle.GRID_HEIGHT]
      split_ifs with hA hB hC
      · omega
      · rcases h3 with h | ⟨h, _⟩ <;> omega
      · obtain ⟨hge, htrue⟩ := hC
        rcases h3 with h | ⟨_, hfalse⟩
        · omega
        · rw [hfalse] at htrue
          cases htrue
      · rfl
    · rw [if_neg hcell]

/-- Truncation to `int8_t` is the identity on in-range values. -/
theorem int8_eq_self (x : Int) (h1 : -128 ≤ x) (h2 : x ≤ 127) :
    Puzzle.int8 x = x := by
  unfold Puzzle.int8
  omega

/-- Pointwise-equal predicates give equal `List.all` results. -/
theorem all_congr_aux {α : Type} (l : List α) (f f2 : α → Bool)
    (h : ∀ x ∈ l, f x = f2 x) : l.all f = l.all f2 := by
  induction l with
  | nil => rfl
  | cons a t ih =>
    rw [List.all_cons, List.all_cons, h a (List.mem_cons_self a t),
      ih fun x hx => h x (List.mem_cons_of_mem a hx)]

/-- On placements whose coordinate sums stay inside the `int8_t` range the
wrapping model and the widened model coincide, so the in-range claims proved
over `can_place` read off the source's behaviour. -/
theorem can_place_int8_agrees (g : Puzzle.Grid) (px py : Int) (t rot : Nat)
    (hx1 : -128 ≤ px) (hx2 : px + 3 ≤ 127) (hy1 : -128 ≤ py) (hy2 : py + 3 ≤ 127) :
    Puzzle.can_place_int8 g px py t rot = Puzzle.can_place g px py t rot := by
  unfold Puzzle.can_place_int8 Puzzle.can_place
  apply all_congr_aux
  intro row hrow
  apply all_congr_aux
  intro col hcol
  have hr4 := List.mem_range.mp hrow
  have hc4 := List.mem_range.mp hcol
  by_cases hcell : Puzzle.pieceCell t rot row col = true
  · rw [if_pos hcell, if_pos hcell]
    dsimp only
    rw [int8_eq_self (px + (col : Int)) (by omega) (by omega),
      int8_eq_self (py + (row : Int)) (by omega) (by omega)]
  · rw [if_neg hcell, if_neg hcell]

/-- C5 counterexample: at `can_place(3, 127, 0, 0)` on the empty grid the
source's `int8_t` assignment wraps `gy = 127 + 1` to -128, takes the
above-the-top path and returns 1, while the claim's condition fails there
(127 + 1 = 128 is neither negative nor below 18). -/
theorem can_place_wraps_at_high_y :
    Puzzle.can_place_int8 Puzzle.emptyGrid 3 127 0 0 = true ∧
    ¬(∀ row col : Nat, row < 4 → col < 4 → Puzzle.pieceCell 0 0 row col = true →
        (0 ≤ (3 : Int) + (col : Int) ∧ (3 : Int) + (col : Int) < 10 ∧
         ((127 : Int) + (row : Int) < 0 ∨
          ((127 : Int) + (row : Int) < 18 ∧
           Puzzle.getCell Puzzle.emptyGrid ((127 : Int) + (row : Int))
             ((3 : Int) + (col : Int)) = false)))) := by
  constructor
  · decide
  · intro H
    have h := H 1 0 (by norm_num) (by norm_num) (by decide)
    rcases h.2.2 with h2 | ⟨h2, _⟩ <;> omega

/-- C5 amended: `can_place(px, py, type, rotation)` returns 1 exactly when
every set cell (row, col) of `pieces[type][rotation]`, with its grid
coordinates `gx = (int8_t)(px+col)` and `gy = (int8_t)(py+row)` computed in
the source's wrapping 8-bit arithmetic, has `gx` in [0, 10) and is either
above the grid's top (`gy < 0`, including wrapped values such as
`(int8_t)128 = -128`) or on an in-range, unoccupied cell (`gy < 18` and
`grid[gy][gx] = 0`). -/
theorem can_place_int8_iff_footprint_fits (g : Puzzle.Grid) (px py : Int) (t rot : Nat) :
    Puzzle.can_place_int8 g px py t rot = true ↔
      ∀ row col : Nat, row < 4 → col < 4 → Puzzle.pieceCell t rot row col = true →
        (0 ≤ Puzzle.int8 (px + (col : Int)) ∧ Puzzle.int8 (px + (col : Int)) < 10 ∧
         (Puzzle.int8 (py + (row : Int)) < 0 ∨
          (Puzzle.int8 (py + (row : Int)) < 18 ∧
           Puzzle.getCell g (Puzzle.int8 (py + (row : Int)))
             (Puzzle.int8 (px + (col : Int))) = false))) := by
  unfold Puzzle.can_place_int8
  rw [List.all_eq_true]
  constructor
  · intro H row col hr hc hcell
    have h1 := H row (List.mem_range.mpr hr)
    rw [List.all_eq_true] at h1
    have h2 := h1 col (List.mem_range.mpr hc)
    rw [if_pos hcell] at h2
    dsimp only at h2
    simp only [Puzzle.GRID_WIDTH, Puzzle.GRID_HEIGHT] at h2
    split_ifs at h2 with hA hB hC
    push_neg at hA hB hC
    refine ⟨by omega, by omega, ?_⟩
    by_cases hg : Puzzle.getCell g (Puzzle.int8 (py + (row : Int)))
        (Puzzle.int8 (px + (col : Int))) = true
    · left
      by_contra hge
      push_neg at hge
      exact (hC hge) hg
    · right
      exact ⟨by omega, by simpa using hg⟩
  · intro H row hrmem
    rw [List.all_eq_true]
    intro col hcmem
    have hr := List.mem_range.mp hrmem
    have hc := List.mem_range.mp hcmem
    by_cases hcell : Puzzle.pieceCell t rot row col = true
    · rw [if_pos hcell]
      obtain ⟨h1, h2, h3⟩ := H row col hr hc hcell
      dsimp only
      simp only [Puzzle.GRID_WIDTH, Puzzle.GRID_HEIGHT]
      split_ifs with hA hB hC
      · omega
      · rcases h3 with h | ⟨h, _⟩ <;> omega
      · obtain ⟨hge, htrue⟩ := hC
        rcases h3 with h | ⟨_, hfalse⟩
        · omega
        · rw [hfalse] at htrue
          cases htrue
      · rfl
    · rw [if_neg hcell]

/-- C7: the just-pressed view `curr_input & ~prev_input` has bit `b` set
exactly when bit `b` is set in the current mask and was clear in the
previous one; in particular a bit held across frames never re-fires. -/
theorem pressed_iff_rising_edge (prev curr b : Nat) (hp : prev < 256) (hc : curr < 256) :
    ((pressedMask prev curr).testBit b = (curr.testBit b && !(prev.testBit b))) ∧
    (prev.testBit b = true → (pressedMask prev curr).testBit b = false) := by
  have main : (pressedMask prev curr).testBit b = (curr.testBit b && !(prev.testBit b)) := by
    unfold pressedMask
    rw [show (255 : Nat) = 2 ^ 8 - 1 from rfl, Nat.testBit_and, Nat.testBit_xor,
      Nat.testBit_two_pow_sub_one]
    by_cases hb : b < 8
    · simp [hb]
    · have h2b : (256 : Nat) ≤ 2 ^ b := by
        calc (256 : Nat) = 2 ^ 8 := rfl
        _ ≤ 2 ^ b := Nat.pow_le_pow_right (by norm_num) (by omega)
      have hcb : curr.testBit b = false :=
        Nat.testBit_lt_two_pow (lt_of_lt_of_le hc h2b)
      simp [hb, hcb]
  refine ⟨main, fun h => ?_⟩
  rw [main, h]
  simp

/-- C7 witness: A (bit 4) held across both frames does not re-fire. -/
theorem pressed_iff_rising_edge_witness :
    (((pressedMask 16 16).testBit 4 = ((16 : Nat).testBit 4 && !((16 : Nat).testBit 4))) ∧
     ((16 : Nat).testBit 4 = true → (pressedMask 16 16).testBit 4 = false)) :=
  pressed_iff_rising_edge 16 16 4 (by norm_num) (by norm_num)

/-- C8: the per-frame step (`game_handle_input` then `game_update`) is a
deterministic function of the prior state and that frame's input byte: two
runs from equal initial states (seed included) on identical input traces
agree on the full game state at every frame. -/
theorem puzzle_replay_deterministic (s1 s2 : Puzzle.GameState) (T1 T2 : List Nat)
    (hs : s1 = s2) (hT : T1 = T2) (n : Nat) :
    Puzzle.run s1 (T1.take n) = Puzzle.run s2 (T2.take n) := by
  subst hs
  subst hT
  rfl

/-- C8 witness: the two-frame replay from `baseState` on the trace
[DOWN, START]. -/
theorem puzzle_replay_deterministic_witness :
    Puzzle.run Puzzle.baseState ([8, 128].take 2) =
      Puzzle.run Puzzle.baseState ([8, 128].take 2) :=
  puzzle_replay_deterministic Puzzle.baseState Puzzle.baseState [8, 128] [8, 128] rfl rfl 2

/-- C9: once `game_over = 1`, a frame whose input does not newly press START
changes nothing but the two input snapshots: `game_handle_input` returns
after shifting them, and `game_update` returns at once. -/
theorem puzzle_game_over_frozen (s : Puzzle.GameState) (joy : Nat)
    (hgo : s.game_over = 1)
    (hstart : pressedMask s.curr_input joy &&& J_START = 0) :
    Puzzle.game_handle_input s joy =
      { s with prev_input := s.curr_input, curr_input := joy } ∧
    Puzzle.game_update (Puzzle.game_handle_input s joy) =
      Puzzle.game_handle_input s joy := by
  have h1 : Puzzle.game_handle_input s joy =
      { s with prev_input := s.curr_input, curr_input := joy } := by
    unfold Puzzle.game_handle_input
    dsimp only
    rw [if_neg fun hcon => hcon.1 hstart, if_pos (show s.game_over ≠ 0 by omega)]
  refine ⟨h1, ?_⟩
  rw [h1]
  unfold Puzzle.game_update
  dsimp only
  rw [if_pos (show s.game_over ≠ 0 by omega)]

/-- C9 witness: the frozen frame at the concrete game-over state with no
buttons pressed. -/
theorem puzzle_game_over_frozen_witness :
    Puzzle.game_handle_input Puzzle.stateOver 0 =
      { Puzzle.stateOver with
        prev_input := Puzzle.stateOver.curr_input, curr_input := 0 } ∧
    Puzzle.game_update (Puzzle.game_handle_input Puzzle.stateOver 0) =
      Puzzle.game_handle_input Puzzle.stateOver 0 :=
  puzzle_game_over_frozen Puzzle.stateOver 0 rfl (by decide)

/-- C10: `game.count` never exceeds 9999: both entry points preserve
`count ≤ 9999`, and a frame that newly presses A alone while `count = 9999`
changes nothing but the two input snapshots. -/
theorem clicker_count_capped (s : Clicker.GameState) (joy : Nat) (hc : s.count ≤ 9999) :
    (Clicker.game_handle_input s joy).count ≤ 9999 ∧
    (Clicker.game_update s).count ≤ 9999 ∧
    (s.count = 9999 → joy &&& J_A ≠ 0 → s.curr_input &&& J_A = 0 →
      joy &&& J_B = 0 → joy &&& J_START = 0 → joy &&& J_SELECT = 0 →
      Clicker.game_handle_input s joy =
        { s with prev_input := s.curr_input, curr_input := joy }) := by
  refine ⟨?_, ?_, ?_⟩
  · unfold Clicker.game_handle_input
    dsimp only
    split_ifs <;>
      · try simp only [Clicker.save_write, Clicker.save_clear]
        try dsimp only
        omega
  · unfold Clicker.game_update
    split_ifs <;>
      · try simp only [Clicker.save_write]
        try dsimp only
        omega
  · intro h9 hA hAprev hB hST hSEL
    unfold Clicker.game_handle_input
    dsimp only
    split_ifs <;> first | rfl | simp_all

/-- C10 witness: the cap at the concrete state with `count = 9999` and a
fresh A press. -/
theorem clicker_count_capped_witness :
    (Clicker.game_handle_input { Clicker.cexState with count := 9999 } 16).count ≤ 9999 ∧
    (Clicker.game_update { Clicker.cexState with count := 9999 }).count ≤ 9999 ∧
    (({ Clicker.cexState with count := 9999 } : Clicker.GameState).count = 9999 →
      (16 : Nat) &&& J_A ≠ 0 →
      ({ Clicker.cexState with count := 9999 } : Clicker.GameState).curr_input &&& J_A = 0 →
      (16 : Nat) &&& J_B = 0 → (16 : Nat) &&& J_START = 0 → (16 : Nat) &&& J_SELECT = 0 →
      Clicker.game_handle_input { Clicker.cexState with count := 9999 } 16 =
        { { Clicker.cexState with count := 9999 } with
          prev_input := ({ Clicker.cexState with count := 9999 } : Clicker.GameState).curr_input,
          curr_input := 16 }) :=
  clicker_count_capped { Clicker.cexState with count := 9999 } 16 (by norm_num)

namespace Puzzle

/-- Reading a just-set index of a list. -/
theorem getD_set_self {α : Type} (l : List α) (i : Nat) (v d : α) (h : i < l.length) :
    (l.set i v).getD i d = v := by
  induction l generalizing i with
  | nil => simp at h
  | cons a t ih =>
    cases i with
    | zero => rfl
    | succ n => simpa using ih n (by simpa using h)

/-- Reading any other index of a just-set list. -/
theorem getD_set_ne {α : Type} (l : List α) (i j : Nat) (v d : α) (h : i ≠ j) :
    (l.set i v).getD j d = l.getD j d := by
  induction l generalizing i j with
  | nil => rfl
  | cons a t ih =>
    cases i with
    | zero =>
      cases j with
      | zero => exact absurd rfl h
      | succ m => rfl
    | succ n =>
      cases j with
      | zero => rfl
      | succ m => simpa using ih n m (by omega)

/-- Setting a clear cell of a row to 1 raises its count by one. -/
theorem countP_set_true (r : List Bool) (x : Nat) (hx : x < r.length)
    (hf : r.getD x false = false) :
    (r.set x true).countP id = r.countP id + 1 := by
  induction r generalizing x with
  | nil => simp at hx
  | cons a t ih =>
    cases x with
    | zero =>
      have ha : a = false := hf
      subst ha
      simp [List.countP_cons]
    | succ n =>
      have hrec := ih n (by simpa using hx) (by simpa using hf)
      cases a <;> simp [List.countP_cons, hrec, id]

/-- Replacing one row changes the occupied count by the difference of the
row counts. -/
theorem occupied_set_row (g : Grid) (y : Nat) (r : Row) (hy : y < g.length) :
    occupied (g.set y r) + (g.getD y []).countP id = occupied g + r.countP id := by
  induction g generalizing y with
  | nil => simp at hy
  | cons a t ih =>
    cases y with
    | zero =>
      simp only [List.set_cons_zero, occupied, List.map_cons, List.sum_cons,
        List.getD_cons_zero]
      omega
    | succ n =>
      have hrec := ih n (by simpa using hy)
      simp only [List.set_cons_succ, occupied, List.map_cons, List.sum_cons,
        List.getD_cons_succ] at hrec ⊢
      omega

/-- A row's length, read off the grid invariant. -/
theorem gridWF_row_length (g : Grid) (y : Nat) (hWF : gridWF g) (hy : y < GRID_HEIGHT) :
    (g.getD y []).length = GRID_WIDTH := by
  obtain ⟨hlen, hrows⟩ := hWF
  have hy2 : y < g.length := by rw [hlen]; exact hy
  have hmem : g.getD y [] ∈ g := by
    rw [List.getD_eq_getElem g [] hy2]
    exact List.getElem_mem hy2
  exact hrows _ hmem

/-- Setting an empty in-range cell raises the occupied count by one. -/
theorem occupied_setCell (g : Grid) (y x : Nat) (hy : y < g.length)
    (hx : x < (g.getD y []).length) (hempty : getCellN g y x = false) :
    occupied (setCell g y x) = occupied g + 1 := by
  unfold setCell
  have h1 := occupied_set_row g y ((g.getD y []).set x true) hy
  have h2 := countP_set_true (g.getD y []) x hx hempty
  omega

/-- Setting a cell leaves every other cell unchanged. -/
theorem getCellN_setCell_ne (g : Grid) (y x j i : Nat) (h : j ≠ y ∨ i ≠ x) :
    getCellN (setCell g y x) j i = getCellN g j i := by
  unfold getCellN setCell
  rcases h with h | h
  · rw [getD_set_ne _ _ _ _ _ (fun he => h he.symm)]
  · by_cases hj : j = y
    · subst hj
      by_cases hlen : j < g.length
      · rw [getD_set_self _ _ _ _ hlen, getD_set_ne _ _ _ _ _ (fun he => h he.symm)]
      · rw [List.set_eq_of_length_le (by omega)]
    · rw [getD_set_ne _ _ _ _ _ (fun he => hj he.symm)]

/-- Setting an in-range cell preserves the grid invariant. -/
theorem gridWF_setCell (g : Grid) (y x : Nat) (hWF : gridWF g) (hy : y < GRID_HEIGHT) :
    gridWF (setCell g y x) := by
  have hrow := gridWF_row_length g y hWF hy
  obtain ⟨hlen, hrows⟩ := hWF
  constructor
  · simpa [setCell] using hlen
  · intro r hr
    unfold setCell at hr
    rcases List.mem_or_eq_of_mem_set hr with h1 | h1
    · exact hrows r h1
    · subst h1
      rw [List.length_set]
      exact hrow

end Puzzle

namespace Puzzle

/-- The inner locking loop writes only into its own grid row. -/
theorem lockRow_getCellN_other (px py : Int) (t rot row : Nat) (cols : List Nat)
    (g : Grid) (j i : Nat) (hj : j ≠ (py + (row : Int)).toNat) :
    getCellN (cols.foldl (lockStep px py t rot row) g) j i = getCellN g j i := by
  induction cols generalizing g with
  | nil => rfl
  | cons c cs ih =>
    rw [List.foldl_cons, ih (lockStep px py t rot row g c)]
    unfold lockStep
    dsimp only
    split_ifs with hc hb
    · exact getCellN_setCell_ne _ _ _ _ _ (Or.inl hj)
    · rfl
    · rfl

/-- The inner locking loop over a duplicate-free list of columns whose set
cells are in range and empty adds exactly one occupied cell per set cell. -/
theorem lockRow_occupied (px py : Int) (t rot row : Nat) (cols : List Nat) (g : Grid)
    (hWF : gridWF g) (hnd : cols.Nodup)
    (hok : ∀ col ∈ cols, pieceCell t rot row col = true →
      (0 ≤ px + (col : Int) ∧ px + (col : Int) < 10 ∧ 0 ≤ py + (row : Int) ∧
       py + (row : Int) < 18 ∧
       getCellN g (py + (row : Int)).toNat (px + (col : Int)).toNat = false)) :
    occupied (cols.foldl (lockStep px py t rot row) g)
      = occupied g + cols.countP (fun col => pieceCell t rot row col) ∧
    gridWF (cols.foldl (lockStep px py t rot row) g) := by
  induction cols generalizing g with
  | nil => exact ⟨by simp, hWF⟩
  | cons c cs ih =>
    rw [List.foldl_cons, List.countP_cons]
    have hnd2 := (List.nodup_cons.mp hnd).2
    have hnotmem := (List.nodup_cons.mp hnd).1
    by_cases hcell : pieceCell t rot row c = true
    · obtain ⟨h1, h2, h3, h4, h5⟩ := hok c (List.mem_cons_self c cs) hcell
      have hstep : lockStep px py t rot row g c
          = setCell g (py + (row : Int)).toNat (px + (c : Int)).toNat := by
        unfold lockStep
        rw [if_pos hcell]
        dsimp only
        rw [if_pos (by simp only [GRID_WIDTH, GRID_HEIGHT]; omega)]
      have hylt : (py + (row : Int)).toNat < GRID_HEIGHT := by
        simp only [GRID_HEIGHT]
        omega
      have hylen : (py + (row : Int)).toNat < g.length := by
        rw [hWF.1]
        exact hylt
      have hxlen : (px + (c : Int)).toNat < (g.getD (py + (row : Int)).toNat []).length := by
        rw [gridWF_row_length g _ hWF hylt]
        simp only [GRID_WIDTH]
        omega
      have hocc := occupied_setCell g _ _ hylen hxlen h5
      have hWF2 := gridWF_setCell g (py + (row : Int)).toNat (px + (c : Int)).toNat hWF hylt
      have hok2 : ∀ col ∈ cs, pieceCell t rot row col = true →
          (0 ≤ px + (col : Int) ∧ px + (col : Int) < 10 ∧ 0 ≤ py + (row : Int) ∧
           py + (row : Int) < 18 ∧
           getCellN (setCell g (py + (row : Int)).toNat (px + (c : Int)).toNat)
             (py + (row : Int)).toNat (px + (col : Int)).toNat = false) := by
        intro col hcmem hcellcol
        obtain ⟨k1, k2, k3, k4, k5⟩ := hok col (List.mem_cons_of_mem c hcmem) hcellcol
        refine ⟨k1, k2, k3, k4, ?_⟩
        rw [getCellN_setCell_ne]
        · exact k5
        · right
          have hne : col ≠ c := fun he => hnotmem (he ▸ hcmem)
          omega
      obtain ⟨ho2, hw2⟩ := ih (setCell g (py + (row : Int)).toNat (px + (c : Int)).toNat)
        hWF2 hnd2 hok2
      rw [hstep]
      refine ⟨?_, hw2⟩
      rw [ho2, hocc, if_pos hcell]
      omega
    · have hstep : lockStep px py t rot row g c = g := by
        unfold lockStep
        rw [if_neg hcell]
      rw [hstep, if_neg hcell]
      obtain ⟨ho2, hw2⟩ := ih g hWF hnd2
        (fun col hcmem hcellcol => hok col (List.mem_cons_of_mem c hcmem) hcellcol)
      exact ⟨by omega, hw2⟩

/-- The outer locking loop over duplicate-free rows adds exactly the piece's
cell count. -/
theorem lock_fold_occupied (px py : Int) (t rot : Nat) (rows : List Nat) (g : Grid)
    (hWF : gridWF g) (hpy : 0 ≤ py) (hnd : rows.Nodup)
    (hok : ∀ row ∈ rows, ∀ col : Nat, col < 4 → pieceCell t rot row col = true →
      (0 ≤ px + (col : Int) ∧ px + (col : Int) < 10 ∧ py + (row : Int) < 18 ∧
       getCellN g (py + (row : Int)).toNat (px + (col : Int)).toNat = false)) :
    occupied (rows.foldl (lockRow px py t rot) g)
      = occupied g +
        (rows.map fun row => (List.range 4).countP fun col => pieceCell t rot row col).sum ∧
    gridWF (rows.foldl (lockRow px py t rot) g) := by
  induction rows generalizing g with
  | nil => exact ⟨by simp, hWF⟩
  | cons r rs ih =>
    rw [List.foldl_cons, List.map_cons, List.sum_cons]
    have hnd2 := (List.nodup_cons.mp hnd).2
    have hnotmem := (List.nodup_cons.mp hnd).1
    have hokr : ∀ col ∈ List.range 4, pieceCell t rot r col = true →
        (0 ≤ px + (col : Int) ∧ px + (col : Int) < 10 ∧ 0 ≤ py + (r : Int) ∧
         py + (r : Int) < 18 ∧
         getCellN g (py + (r : Int)).toNat (px + (col : Int)).toNat = false) := by
      intro col hcmem hcell
      obtain ⟨k1, k2, k3, k4⟩ := hok r (List.mem_cons_self r rs) col (List.mem_range.mp hcmem) hcell
      exact ⟨k1, k2, by omega, k3, k4⟩
    obtain ⟨ho1, hw1⟩ := lockRow_occupied px py t rot r (List.range 4) g hWF
      (List.nodup_range 4) hokr
    have hok2 : ∀ row ∈ rs, ∀ col : Nat, col < 4 → pieceCell t rot row col = true →
        (0 ≤ px + (col : Int) ∧ px + (col : Int) < 10 ∧ py + (row : Int) < 18 ∧
         getCellN (lockRow px py t rot g r) (py + (row : Int)).toNat
           (px + (col : Int)).toNat = false) := by
      intro row hrmem col hcol hcell
      obtain ⟨k1, k2, k3, k4⟩ := hok row (List.mem_cons_of_mem r hrmem) col hcol hcell
      refine ⟨k1, k2, k3, ?_⟩
      have hne : row ≠ r := fun he => hnotmem (he ▸ hrmem)
      have hjne : (py + (row : Int)).toNat ≠ (py + (r : Int)).toNat := by omega
      unfold lockRow
      rw [lockRow_getCellN_other px py t rot r (List.range 4) g _ _ hjne]
      exact k4
    obtain ⟨ho2, hw2⟩ := ih (lockRow px py t rot g r) hw1 hnd2 hok2
    refine ⟨?_, hw2⟩
    have ho1b : occupied (lockRow px py t rot g r)
        = occupied g + (List.range 4).countP fun col => pieceCell t rot r col := ho1
    rw [ho2, ho1b]
    omega

/-- `lock_piece` under a valid on-screen placement adds exactly the piece's
cell count and preserves the grid invariant. -/
theorem occupied_lock_piece (g : Grid) (px py : Int) (t rot : Nat)
    (hWF : gridWF g) (hpy : 0 ≤ py) (hcp : can_place g px py t rot = true) :
    occupied (lock_piece g px py t rot) = occupied g + pieceCount t rot ∧
    gridWF (lock_piece g px py t rot) := by
  have hspec := (can_place_spec g px py t rot).mp hcp
  have hbridge : lock_piece g px py t rot = (List.range 4).foldl (lockRow px py t rot) g := rfl
  rw [hbridge]
  have h := lock_fold_occupied px py t rot (List.range 4) g hWF hpy (List.nodup_range 4)
    (fun row hr col hc hcell => by
      have hs := hspec row col (List.mem_range.mp hr) hc hcell
      refine ⟨hs.1, hs.2.1, ?_, ?_⟩
      · rcases hs.2.2 with hlt | ⟨hlt, _⟩ <;> omega
      · rcases hs.2.2 with hlt | ⟨_, hcellfalse⟩
        · exact absurd hlt (by omega)
        · exact hcellfalse)
  have hcnt : ((List.range 4).map fun row =>
      (List.range 4).countP fun col => pieceCell t rot row col).sum = pieceCount t rot := rfl
  rw [hcnt] at h
  exact h

end Puzzle

namespace Puzzle

/-- A full row lies inside the grid. -/
theorem rowFull_lt_length (g : Grid) (row : Nat) (h : rowFull g row = true) :
    row < g.length := by
  by_contra hge
  push_neg at hge
  unfold rowFull at h
  rw [List.all_eq_true] at h
  have h0 := h 0 (List.mem_range.mpr (by simp [GRID_WIDTH]))
  unfold getCellN at h0
  rw [List.getD_eq_default _ _ hge] at h0
  simp at h0

/-- A full row of the right length has exactly `GRID_WIDTH` occupied cells. -/
theorem rowFull_count (g : Grid) (row : Nat) (hf : rowFull g row = true)
    (hlen : (g.getD row []).length = GRID_WIDTH) :
    (g.getD row []).countP id = GRID_WIDTH := by
  unfold rowFull at hf
  rw [List.all_eq_true] at hf
  have hall : ∀ b ∈ g.getD row [], id b = true := by
    intro b hb
    obtain ⟨i, hi, hbi⟩ := List.mem_iff_getElem.mp hb
    have hmem : i ∈ List.range GRID_WIDTH := List.mem_range.mpr (by omega)
    have hcell := hf i hmem
    unfold getCellN at hcell
    rw [List.getD_eq_getElem (g.getD row []) false hi] at hcell
    rw [← hbi]
    exact hcell
  rw [← hlen]
  exact List.countP_eq_length.mpr hall

/-- Clearing a full row removes its occupied cells and nothing else. -/
theorem occupied_clearRow (g : Grid) (row : Nat) (hrow : row < g.length) :
    occupied (clearRow g row) + (g.getD row []).countP id = occupied g := by
  have hdecomp : g = g.take row ++ g[row] :: g.drop (row + 1) := by
    conv_lhs => rw [← List.take_append_drop row g, List.drop_eq_getElem_cons hrow]
  have hget : g.getD row [] = g[row] := List.getD_eq_getElem g [] hrow
  unfold clearRow occupied
  conv_rhs => rw [hdecomp]
  simp only [List.map_cons, List.map_append, List.sum_cons, List.sum_append]
  have hz : (List.replicate GRID_WIDTH false).countP id = 0 := rfl
  rw [hz, hget]
  omega

/-- Clearing a row preserves the row lengths. -/
theorem clearRow_rowsWF (g : Grid) (row : Nat)
    (h : ∀ r ∈ g, r.length = GRID_WIDTH) :
    ∀ r ∈ clearRow g row, r.length = GRID_WIDTH := by
  intro r hr
  unfold clearRow at hr
  rcases List.mem_cons.mp hr with h1 | h1
  · subst h1
    simp
  · rcases List.mem_append.mp h1 with h2 | h2
    · exact h r (List.take_subset _ _ h2)
    · exact h r (List.drop_subset _ _ h2)

/-- The scanning loop of `check_lines` removes exactly `GRID_WIDTH` occupied
cells per cleared line. -/
theorem checkLinesGo_occupied (fuel : Nat) :
    ∀ (g : Grid) (row cleared : Nat), (∀ r ∈ g, r.length = GRID_WIDTH) →
      occupied (checkLinesGo fuel g row cleared).1
          + GRID_WIDTH * (checkLinesGo fuel g row cleared).2
        = occupied g + GRID_WIDTH * cleared := by
  induction fuel with
  | zero =>
    intro g row cleared h
    rfl
  | succ n ih =>
    intro g row cleared h
    rw [checkLinesGo]
    by_cases hf : rowFull g row = true
    · rw [if_pos hf]
      have hlt := rowFull_lt_length g row hf
      have hmem : g.getD row [] ∈ g := by
        rw [List.getD_eq_getElem g [] hlt]
        exact List.getElem_mem hlt
      have hcnt := rowFull_count g row hf (h _ hmem)
      have hclr := occupied_clearRow g row hlt
      have hrec := ih (clearRow g row) (row + 1) (cleared + 1) (clearRow_rowsWF g row h)
      simp only [show GRID_WIDTH = 10 from rfl] at hcnt hrec ⊢
      omega
    · rw [if_neg hf]
      exact ih g (row + 1) cleared h

end Puzzle

/-- C6: a lock event (`lock_piece` on a validly placed, on-screen piece,
then `check_lines`) that clears L full rows leaves
`occupied after + 10·L = occupied before + (piece cell count)`, i.e. the
occupied-cell count is conserved up to the locked cells and the cleared
rows. -/
theorem puzzle_lock_conservation (g : Puzzle.Grid) (px py : Int) (t rot : Nat)
    (hWF : Puzzle.gridWF g) (hpy : 0 ≤ py)
    (hcp : Puzzle.can_place g px py t rot = true) :
    Puzzle.occupied (Puzzle.check_lines_scan (Puzzle.lock_piece g px py t rot)).1
        + 10 * (Puzzle.check_lines_scan (Puzzle.lock_piece g px py t rot)).2
      = Puzzle.occupied g + Puzzle.pieceCount t rot := by
  obtain ⟨hocc, hWF2⟩ := Puzzle.occupied_lock_piece g px py t rot hWF hpy hcp
  have hscan := Puzzle.checkLinesGo_occupied Puzzle.GRID_HEIGHT
    (Puzzle.lock_piece g px py t rot) 0 0 hWF2.2
  rw [show Puzzle.GRID_WIDTH = 10 from rfl] at hscan
  unfold Puzzle.check_lines_scan
  omega

/-- C6 witness: locking the O piece at (0, 15) over `gridAlmostFull`
completes and clears the bottom row. -/
theorem puzzle_lock_conservation_witness :
    Puzzle.occupied (Puzzle.check_lines_scan (Puzzle.lock_piece Puzzle.gridAlmostFull 0 15 1 0)).1
        + 10 * (Puzzle.check_lines_scan (Puzzle.lock_piece Puzzle.gridAlmostFull 0 15 1 0)).2
      = Puzzle.occupied Puzzle.gridAlmostFull + Puzzle.pieceCount 1 0 :=
  puzzle_lock_conservation Puzzle.gridAlmostFull 0 15 1 0
    (by unfold Puzzle.gridWF; decide) (by decide) (by decide)
